import Mathlib

/-!
Verification of the single-domain web scraper (`scraper.py`).

The development shallowly embeds the scraper: Python strings become Lean
`String`, the urllib helpers (`urlparse`, `urljoin`, `unquote`) and the
`os.path` helpers (`basename`, `splitext`) are modelled as executable Lean
functions over the character list of a string, network responses and the
filesystem are passed explicitly as data, and the BFS crawl loop is a
fuel-indexed step function.  HTML parsing is abstracted away: the extractor
receives the document-order list of `href` attribute values (for `a` and
`link` tags) and the list of `src` values of `img` tags, exactly the data
the Python code reads out of BeautifulSoup.
-/

/-! ## Python string primitives -/

/-- ASCII uppercase test, `65 ≤ c ≤ 90`. -/
def isAsciiUpper (c : Char) : Bool :=
  65 ≤ c.toNat && c.toNat ≤ 90

/-- ASCII lowering of one character, as `str.lower` acts on ASCII input:
uppercase letters move down by 32, everything else is unchanged. -/
def pyToLower (c : Char) : Char :=
  if 65 ≤ c.toNat && c.toNat ≤ 90 then Char.ofNat (c.toNat + 32) else c

/-- `s.lower()` on ASCII input: lower every character. -/
def pyLower (s : String) : String :=
  ⟨s.data.map pyToLower⟩

/-- `s.endswith(t)`: `t` is a suffix of `s`. -/
def pyEndsWith (s t : String) : Bool :=
  t.data.isSuffixOf s.data

/-- The characters `str.strip()` removes: space, tab, newline, carriage
return, vertical tab, form feed. -/
def isPySpace (c : Char) : Bool :=
  c = ' ' || c = '\t' || c = '\n' || c = '\r' || c = '\x0b' || c = '\x0c'

/-- `s.strip()`: drop leading and trailing whitespace. -/
def pyStrip (s : String) : String :=
  ⟨((s.data.dropWhile isPySpace).reverse.dropWhile isPySpace).reverse⟩

/-- `s.split(sep)[0]` for a one-character separator: the prefix of `s`
before the first occurrence of `sep`. -/
def splitHead (sep : Char) (s : String) : String :=
  ⟨s.data.takeWhile (fun c => c ≠ sep)⟩

/-- Value of a hexadecimal digit, if any. -/
def hexVal (c : Char) : Option Nat :=
  if 48 ≤ c.toNat && c.toNat ≤ 57 then some (c.toNat - 48)
  else if 97 ≤ c.toNat && c.toNat ≤ 102 then some (c.toNat - 87)
  else if 65 ≤ c.toNat && c.toNat ≤ 70 then some (c.toNat - 55)
  else none

/-- Percent-decoding of `urllib.parse.unquote`, modelled at the byte
(ASCII) level: each valid `%XY` triple becomes the character with code
`16*X + Y`; an invalid escape is left verbatim, as in Python. -/
def pyUnquoteList : List Char → List Char
  | [] => []
  | '%' :: a :: b :: rest =>
    match hexVal a, hexVal b with
    | some x, some y => Char.ofNat (16 * x + y) :: pyUnquoteList rest
    | _, _ => '%' :: a :: b :: pyUnquoteList rest
  | c :: rest => c :: pyUnquoteList rest

/-- `urllib.parse.unquote` on a string. -/
def pyUnquote (s : String) : String :=
  ⟨pyUnquoteList s.data⟩

/-! ## os.path helpers -/

/-- `os.path.basename`: the part of the path after the last slash. -/
def basename (s : String) : String :=
  ⟨(s.data.reverse.takeWhile (fun c => c ≠ '/')).reverse⟩

/-- `os.path.splitext` on a slash-free name: split at the last dot,
except that a name whose characters before the last dot are all dots
(such as `".txt"` or `".."`) has no extension. -/
def splitext (s : String) : String × String :=
  let rev := s.data.reverse
  let extRev := rev.takeWhile (fun c => c ≠ '.')
  if extRev.length = rev.length then (s, "")
  else
    let root := (rev.drop (extRev.length + 1)).reverse
    if root.all (fun c => c = '.') then (s, "")
    else (⟨root⟩, ⟨'.' :: extRev.reverse⟩)

/-! ## urllib.parse: urlparse and urljoin

Modelled for the URL shapes the scraper meets: an optional scheme
(letters, digits, `+`, `-`, `.` before the first colon, starting with a
letter), then an optional `//netloc`, then the path, with query and
fragment cut at `?` and `#`.  `urljoin` handles absolute references,
scheme-relative (`//h/p`), root-relative (`/p`) and plain relative
references; dot-segment normalisation is not modelled (no claim
exercises it). -/

/-- Split a character list at the first colon, returning the parts
before and after it. -/
def splitFirstColon : List Char → Option (List Char × List Char)
  | [] => none
  | c :: cs =>
    if c = ':' then some ([], cs)
    else
      match splitFirstColon cs with
      | some (pre, post) => some (c :: pre, post)
      | none => none

/-- Whether a character list is a valid URL scheme: nonempty, starts
with a letter, rest letters, digits, `+`, `-` or `.`. -/
def isSchemeString (cs : List Char) : Bool :=
  match cs with
  | [] => false
  | c :: rest => c.isAlpha && rest.all (fun d => d.isAlphanum || d = '+' || d = '-' || d = '.')

/-- The scheme of a URL and the remainder after the colon, when the URL
has a scheme. -/
def schemeSplit (cs : List Char) : Option (List Char × List Char) :=
  match splitFirstColon cs with
  | some (pre, post) => if isSchemeString pre then some (pre, post) else none
  | none => none

/-- The components of `urllib.parse.urlparse` the scraper uses. -/
structure UrlParts where
  scheme : String
  netloc : String
  path : String
deriving DecidableEq, Repr

/-- `urllib.parse.urlparse`, restricted to scheme, netloc and path. -/
def urlparse (s : String) : UrlParts :=
  let (scheme, rest) :=
    match schemeSplit s.data with
    | some (pre, post) => (pre, post)
    | none => ([], s.data)
  let (netloc, rest2) :=
    if rest.take 2 = ['/', '/'] then
      ((rest.drop 2).takeWhile (fun c => c ≠ '/' && c ≠ '?' && c ≠ '#'),
       (rest.drop 2).dropWhile (fun c => c ≠ '/' && c ≠ '?' && c ≠ '#'))
    else ([], rest)
  let path := rest2.takeWhile (fun c => c ≠ '?' && c ≠ '#')
  ⟨⟨scheme⟩, ⟨netloc⟩, ⟨path⟩⟩

/-- The path of a URL up to and including its last slash; `"/"` when the
path has no slash. -/
def dirOf (p : String) : String :=
  if p.data.contains '/' then ⟨(p.data.reverse.dropWhile (fun c => c ≠ '/')).reverse⟩
  else "/"

/-- `urllib.parse.urljoin base ref`: an absolute reference is returned
unchanged; `//h/p` borrows the scheme of the base; `/p` borrows scheme
and netloc; a plain relative reference replaces the last path segment of
the base; the empty reference yields the base. -/
def urljoin (base ref : String) : String :=
  if ref.data.isEmpty then base
  else if (schemeSplit ref.data).isSome then ref
  else
    let b := urlparse base
    if ref.data.take 2 = ['/', '/'] then b.scheme ++ ":" ++ ref
    else if ref.data.take 1 = ['/'] then b.scheme ++ "://" ++ b.netloc ++ ref
    else b.scheme ++ "://" ++ b.netloc ++ dirOf b.path ++ ref

/-! ## The file-type table and the WebScraper state -/

/-- The `FILE_TYPES` table of `scraper.py`, in its insertion order. -/
def FILE_TYPES : List (String × List String) :=
  [("pdf", [".pdf"]),
   ("docs", [".doc", ".docx", ".txt", ".rtf"]),
   ("ppt", [".ppt", ".pptx"]),
   ("xls", [".xls", ".xlsx", ".csv"]),
   ("zip", [".zip", ".rar", ".7z", ".tar", ".gz"]),
   ("images", [".jpg", ".jpeg", ".png", ".gif", ".bmp", ".svg"])]

/-- `WebScraper.get_download_folder`: first table entry whose extension
list contains the extension, else `"others"`. -/
def get_download_folder (extension : String) : String :=
  match FILE_TYPES.find? (fun p => p.2.contains extension) with
  | some p => p.1
  | none => "others"

/-- The immutable configuration of one `WebScraper` instance: the seed
URL, the domain derived from it once, and the target extensions. -/
structure WebScraper where
  base_url : String
  domain : String
  target_extensions : List String
deriving DecidableEq, Repr

/-- `WebScraper.__init__`: the domain is the netloc of the base URL. -/
def mkScraper (base_url : String) (target_extensions : List String) : WebScraper :=
  ⟨base_url, (urlparse base_url).netloc, target_extensions⟩

/-- `WebScraper.is_internal_link`: the netloc of the URL equals the
stored domain. -/
def WebScraper.is_internal_link (self : WebScraper) (url : String) : Bool :=
  (urlparse url).netloc = self.domain

/-- `WebScraper.is_target_file`: the lowercased URL path ends with one
of the target extensions, each taken verbatim. -/
def WebScraper.is_target_file (self : WebScraper) (url : String) : Bool :=
  self.target_extensions.any (fun ext => pyEndsWith (pyLower (urlparse url).path) ext)

/-! ## Link/resource extraction

`extract_links_and_files` walks the `href` values of `a` and `link` tags
in document order; for each it resolves against the current URL, strips
the fragment, skips an empty result, downloads a target file, and
otherwise collects an unvisited internal link.  Download side effects
are recorded as the document-order sequence of URLs passed to
`download_file`.  When an image extension is among the targets, the
`src` values of `img` tags get the target-file test too. -/

/-- Resolution of one reference: `urljoin`, then cut at the first `#`. -/
def resolveRef (current href : String) : String :=
  splitHead '#' (urljoin current href)

/-- The `a`/`link` loop of `extract_links_and_files`: returns the
collected crawl links and the download calls, both in document order. -/
def extractHrefLoop (self : WebScraper) (visited : List String) (current : String) :
    List String → List String × List String
  | [] => ([], [])
  | href :: rest =>
    let full_url := resolveRef current href
    let p := extractHrefLoop self visited current rest
    if full_url.data.isEmpty then p
    else if self.is_target_file full_url then (p.1, full_url :: p.2)
    else if self.is_internal_link full_url && !(visited.contains full_url) then
      (full_url :: p.1, p.2)
    else p

/-- The `img` loop of `extract_links_and_files`: download calls only. -/
def extractImgLoop (self : WebScraper) (current : String) : List String → List String
  | [] => []
  | src :: rest =>
    let full_url := urljoin current src
    if self.is_target_file full_url then full_url :: extractImgLoop self current rest
    else extractImgLoop self current rest

/-- `WebScraper.extract_links_and_files`, over the document-order `href`
values of `a`/`link` tags and `src` values of `img` tags: returns
`(new_links, download_calls)`. -/
def extract_links_and_files (self : WebScraper) (visited : List String)
    (hrefs imgSrcs : List String) (current : String) : List String × List String :=
  let p := extractHrefLoop self visited current hrefs
  let imgDownloads :=
    if FILE_TYPES.find? (fun q => q.1 = "images") |>.elim [] (·.2)
        |>.any (fun ext => self.target_extensions.contains ext) then
      extractImgLoop self current imgSrcs
    else []
  (p.1, p.2 ++ imgDownloads)

/-! ## HTTP fetch with retry -/

/-- What one `requests.get` attempt can produce inside `fetch_page`: an
HTTP status code, or a raised `RequestException` (connection error or
timeout). -/
inductive AttemptOutcome where
  | status (code : Nat)
  | exc
deriving DecidableEq, Repr

/-- The exit paths of `fetch_page`, distinguished by its control flow
and log lines: a 200 body, a 404, a 403, or retries exhausted. -/
inductive FetchResult where
  | success
  | notFound
  | forbidden
  | exhausted
deriving DecidableEq, Repr

/-- The `for i in range(retries)` loop of `fetch_page` over the pending
attempt outcomes: returns the result, the number of attempts consumed,
and the list of `time.sleep` durations performed.  A 200 returns
immediately; 404 and 403 return immediately; an exception sleeps 2 and
retries; any other status retries without sleeping; an empty attempt
list means the loop ended and `None` is returned. -/
def fetchLoop : List AttemptOutcome → FetchResult × Nat × List Nat
  | [] => (.exhausted, 0, [])
  | .status code :: rest =>
    if code = 200 then (.success, 1, [])
    else if code = 404 then (.notFound, 1, [])
    else if code = 403 then (.forbidden, 1, [])
    else ((fetchLoop rest).1, (fetchLoop rest).2.1 + 1, (fetchLoop rest).2.2)
  | .exc :: rest => ((fetchLoop rest).1, (fetchLoop rest).2.1 + 1, 2 :: (fetchLoop rest).2.2)

/-- `WebScraper.fetch_page` with `retries = 3`: the i-th attempt is
`oracle i`. -/
def fetch_page (oracle : Nat → AttemptOutcome) : FetchResult × Nat × List Nat :=
  fetchLoop [oracle 0, oracle 1, oracle 2]

/-! ## Download pipeline

The filesystem is an association list from paths to byte contents; the
network behaviour of the streamed `requests.get` is an oracle from URLs
to an optional response (`none` models a raised connection error), whose
body is a list of stream items, each a chunk of bytes or a raised error
mid-stream. -/

/-- One item of `iter_content`: a chunk of bytes, or an exception raised
while streaming. -/
inductive StreamItem where
  | chunk (data : List Nat)
  | errItem
deriving DecidableEq, Repr

/-- A response to the streamed `requests.get`. -/
structure NetResponse where
  status : Nat
  body : List StreamItem
deriving DecidableEq, Repr

/-- The reported outcome of `download_file`. -/
inductive DlOutcome where
  | skippedDuplicate
  | downloaded
  | failed
deriving DecidableEq, Repr

/-- The filesystem: existing paths with their contents. -/
abbrev Fs := List (String × List Nat)

/-- The chunk-writing loop: the bytes written to the open file, and
whether the stream completed without raising. -/
def streamWrite : List StreamItem → List Nat × Bool
  | [] => ([], true)
  | .chunk d :: rest => (d ++ (streamWrite rest).1, (streamWrite rest).2)
  | .errItem :: _ => ([], false)

/-- The `save_path` computation of `download_file`: percent-decoded
basename of the URL path, sanitized, placeholder when empty, routed into
the folder of its lowercased extension. -/
def savePathOf (file_url : String) : String :=
  let filename0 := pyUnquote (basename (urlparse file_url).path)
  let filename1 := pyStrip ⟨filename0.data.filter
    (fun c => c.isAlpha || c.isDigit || c = ' ' || c = '.' || c = '_' || c = '-')⟩
  let filename := if filename1.data.isEmpty then "downloaded_file" else filename1
  let ext := (splitext filename).2
  let folder := get_download_folder (pyLower ext)
  "downloads" ++ "/" ++ folder ++ "/" ++ filename

/-- The filename-cleaning step of `download_file` alone: keep only
alphanumerics and space, dot, underscore, hyphen, then strip. -/
def sanitize_filename (s : String) : String :=
  pyStrip ⟨s.data.filter
    (fun c => c.isAlpha || c.isDigit || c = ' ' || c = '.' || c = '_' || c = '-')⟩

/-- The `try` block of `download_file`: `.error fs` is a raised
exception together with the filesystem at that moment (a mid-stream
error leaves the partial file at `save_path`); `.ok` carries the normal
outcome and the filesystem. -/
def download_file_try (net : String → Option NetResponse) (fs : Fs) (file_url : String) :
    Except Fs (DlOutcome × Fs) :=
  let save_path := savePathOf file_url
  if fs.any (fun e => e.1 = save_path) then .ok (.skippedDuplicate, fs)
  else
    match net file_url with
    | none => .error fs
    | some r =>
      if 400 ≤ r.status then .error fs
      else if (streamWrite r.body).2 then
        .ok (.downloaded, (save_path, (streamWrite r.body).1) :: fs)
      else .error ((save_path, (streamWrite r.body).1) :: fs)

/-- `WebScraper.download_file`: the `try` block with its
`except Exception` handler, which reports a per-file failure and
continues. -/
def download_file (net : String → Option NetResponse) (fs : Fs) (file_url : String) :
    DlOutcome × Fs :=
  match download_file_try net fs file_url with
  | .ok r => r
  | .error fs2 => (.failed, fs2)

/-! ## The BFS crawl loop

`crawlStep` is one iteration of `WebScraper.run`; the per-page oracle
abstracts `fetch_page` followed by `extract_links_and_files` (a fetch
failure or non-HTML response is an oracle returning `[]`).  `processed`
records the URLs that reach the processing stage (marked visited and
fetched), in order. -/

/-- The mutable state of `WebScraper.run`: the pending queue, the
visited set, and the processing history. -/
structure CrawlState where
  queue : List String
  visited : List String
  processed : List String
deriving DecidableEq, Repr

/-- The state at the top of `run`: the queue seeded with the base URL. -/
def crawlInit (base_url : String) : CrawlState :=
  ⟨[base_url], [], []⟩

/-- One iteration of the `while not self.queue.empty()` loop: dequeue;
discard if visited; otherwise mark visited, fetch and extract (the
oracle), and enqueue each returned link not yet visited. -/
def crawlStep (oracle : String → List String) (s : CrawlState) : CrawlState :=
  match s.queue with
  | [] => s
  | u :: rest =>
    if u ∈ s.visited then ⟨rest, s.visited, s.processed⟩
    else
      let visited2 := u :: s.visited
      let links := oracle u
      let enq := links.filter (fun l => !(visited2.contains l))
      ⟨rest ++ enq, visited2, s.processed ++ [u]⟩

/-- The crawl loop, fuel-indexed: stop when the queue is empty or the
fuel runs out. -/
def crawlRun (oracle : String → List String) : Nat → CrawlState → CrawlState
  | 0, s => s
  | fuel + 1, s => if s.queue.isEmpty then s else crawlRun oracle fuel (crawlStep oracle s)

/-! ## Helper lemmas -/

/-- Stripping only removes characters: membership is preserved into the
original string. -/
theorem mem_of_mem_pyStrip {c : Char} {s : String} (h : c ∈ (pyStrip s).data) :
    c ∈ s.data := by
  unfold pyStrip at h
  rw [show (String.mk (((s.data.dropWhile isPySpace).reverse.dropWhile isPySpace).reverse)).data
      = ((s.data.dropWhile isPySpace).reverse.dropWhile isPySpace).reverse from rfl,
    List.mem_reverse] at h
  have h2 := (List.dropWhile_sublist isPySpace).mem h
  rw [List.mem_reverse] at h2
  exact (List.dropWhile_sublist isPySpace).mem h2

/-- Every character of a sanitized filename is alphanumeric or one of
space, dot, underscore, hyphen. -/
theorem sanitize_filename_chars {c : Char} {s : String} (h : c ∈ (sanitize_filename s).data) :
    (c.isAlpha || c.isDigit || c = ' ' || c = '.' || c = '_' || c = '-') = true := by
  unfold sanitize_filename at h
  have h2 := mem_of_mem_pyStrip h
  rw [show (String.mk (s.data.filter
      (fun c => c.isAlpha || c.isDigit || c = ' ' || c = '.' || c = '_' || c = '-'))).data
    = s.data.filter
      (fun c => c.isAlpha || c.isDigit || c = ' ' || c = '.' || c = '_' || c = '-') from rfl] at h2
  exact (List.mem_filter.mp h2).2

/-! ## Claim C1 -/

/-- Claim C1, counterexample: in the scenario seeded at
`https://example.com` with target extensions `[".pdf"]`, the
cross-domain reference `https://other.com/x.pdf` DOES trigger a download
call, because `extract_links_and_files` tests `is_target_file` before
the domain check. -/
theorem claim_C1_counterexample :
    "https://other.com/x.pdf" ∈ (extract_links_and_files
      (mkScraper "https://example.com" [".pdf"])
      [] ["/a.html", "/doc.pdf", "https://other.com/x.pdf"] [] "https://example.com").2 := by
  decide

/-- Claim C1, amended: in the scenario seeded at `https://example.com`
with target extensions `[".pdf"]`, extracting a page linking to
`/a.html`, `/doc.pdf` and `https://other.com/x.pdf` downloads BOTH pdf
links (the extension rule fires before the domain check, so the
cross-domain file is downloaded too), with `/doc.pdf` routed to the
`pdf` category; `/a.html` is the only returned crawl link and the
cross-domain link is not returned as a crawl link. -/
theorem claim_C1 :
    extract_links_and_files (mkScraper "https://example.com" [".pdf"])
        [] ["/a.html", "/doc.pdf", "https://other.com/x.pdf"] [] "https://example.com"
      = (["https://example.com/a.html"],
         ["https://example.com/doc.pdf", "https://other.com/x.pdf"])
    ∧ savePathOf "https://example.com/doc.pdf" = "downloads" ++ "/" ++ "pdf" ++ "/" ++ "doc.pdf" := by
  constructor
  · decide
  · decide

/-! ## Claim C4 -/

/-- Claim C4, counterexample: the sanitization step applied to
`"../../etc/passwd"` does not give `"etcpasswd"`: the dot is in the
retained character set, so the dots survive. -/
theorem claim_C4_counterexample :
    sanitize_filename "../../etc/passwd" ≠ "etcpasswd" := by
  decide

/-- Claim C4, amended: filename sanitization retains only alphanumeric
characters and the set space, dot, underscore, hyphen, dropping all
other characters and trimming surrounding whitespace; the input filename
`"../../etc/passwd"` sanitizes to `"....etcpasswd"` (slashes dropped,
dots retained), and the sanitized name contains no path separator, so it
cannot escape the category root. -/
theorem claim_C4 :
    sanitize_filename "../../etc/passwd" = "....etcpasswd"
    ∧ (∀ s : String, ∀ c ∈ (sanitize_filename s).data,
        (c.isAlpha || c.isDigit || c = ' ' || c = '.' || c = '_' || c = '-') = true)
    ∧ (∀ s : String, '/' ∉ (sanitize_filename s).data) := by
  refine ⟨by decide, fun s c h => sanitize_filename_chars h, fun s h => ?_⟩
  have h2 := sanitize_filename_chars h
  simp at h2

/-- Claim C4, witness: the general retained-character property of
`claim_C4` evaluated on a concrete input. -/
theorem claim_C4_witness :
    ('p'.isAlpha || 'p'.isDigit || 'p' = ' ' || 'p' = '.' || 'p' = '_' || 'p' = '-') = true :=
  claim_C4.2.1 "../../etc/passwd" 'p' (by decide)

/-! ## Claim C6 -/

/-- Claim C6: the extension classifier is a total deterministic
function: every string is mapped to exactly one category of the fixed
set, an extension absent from the table maps to `"others"`, and the
extension lists of distinct categories are pairwise disjoint. -/
theorem claim_C6 (ext : String) :
    get_download_folder ext ∈ ["pdf", "docs", "ppt", "xls", "zip", "images", "others"]
    ∧ ((∀ p ∈ FILE_TYPES, ext ∉ p.2) → get_download_folder ext = "others")
    ∧ List.Pairwise (fun p q => ∀ e ∈ p.2, e ∉ q.2) FILE_TYPES := by
  refine ⟨?_, fun h => ?_, by decide⟩
  · unfold get_download_folder
    cases hf : FILE_TYPES.find? (fun p => p.2.contains ext) with
    | none => simp
    | some p =>
      have hp := List.mem_of_find?_eq_some hf
      fin_cases hp <;> simp
  · unfold get_download_folder
    rw [List.find?_eq_none.mpr]
    intro p hp
    simpa using h p hp

/-- Claim C6, witness: `claim_C6` evaluated at an extension not in the
table, discharging the fallback hypothesis. -/
theorem claim_C6_witness : get_download_folder ".xyz" = "others" :=
  (claim_C6 ".xyz").2.1 (by decide)

/-! ## Claim C3 -/

/-- The retry loop consumes at most as many attempts as it was given. -/
theorem fetchLoop_attempts_le (l : List AttemptOutcome) :
    (fetchLoop l).2.1 ≤ l.length := by
  induction l with
  | nil => simp [fetchLoop]
  | cons a rest ih =>
    cases a with
    | exc =>
      simp only [fetchLoop, List.length_cons]
      omega
    | status code =>
      simp only [fetchLoop, List.length_cons]
      split_ifs
      · simp
      · simp
      · simp
      · simp only []
        omega

/-- An oracle whose first attempt yields an HTTP 500 and whose later
attempts yield 200. -/
def oracle500then200 : Nat → AttemptOutcome :=
  fun i => if i = 0 then .status 500 else .status 200

/-- Claim C3, counterexample: `fetch_page` retries after an HTTP 500
response, which is not a transient network failure (not a connection
error or timeout): on attempts 500 then 200 it returns success having
consumed two attempts, with no backoff sleep in between, so retries are
not triggered only by transient failures. -/
theorem claim_C3_counterexample :
    fetch_page oracle500then200 = (.success, 2, [])
    ∧ oracle500then200 0 = .status 500 := by
  constructor
  · rfl
  · rfl

/-- Claim C3, amended: `fetch_page` performs up to 3 attempts total; a
200 response short-circuits and returns success immediately; a 404 or a
403 is terminal, returned immediately as its own outcome with no retry;
a transient failure (raised connection error or timeout) sleeps a fixed
2 time-units and retries; any other response status also causes a retry,
but without a backoff sleep; against an endpoint that always times out
the result is exhausted retries after exactly 3 attempts, with the three
2-unit sleeps, never hanging. -/
theorem claim_C3 (oracle : Nat → AttemptOutcome) :
    (fetch_page oracle).2.1 ≤ 3
    ∧ ((∀ i, oracle i = .exc) → fetch_page oracle = (.exhausted, 3, [2, 2, 2]))
    ∧ (oracle 0 = .status 200 → fetch_page oracle = (.success, 1, []))
    ∧ (oracle 0 = .status 404 → fetch_page oracle = (.notFound, 1, []))
    ∧ (oracle 0 = .status 403 → fetch_page oracle = (.forbidden, 1, []))
    ∧ (oracle 0 = .status 500 → oracle 1 = .status 200 →
        fetch_page oracle = (.success, 2, [])) := by
  refine ⟨?_, fun h => ?_, fun h => ?_, fun h => ?_, fun h => ?_, fun h0 h1 => ?_⟩
  · simpa using fetchLoop_attempts_le [oracle 0, oracle 1, oracle 2]
  · unfold fetch_page
    rw [h 0, h 1, h 2]
    rfl
  · unfold fetch_page
    rw [h]
    simp [fetchLoop]
  · unfold fetch_page
    rw [h]
    simp [fetchLoop]
  · unfold fetch_page
    rw [h]
    simp [fetchLoop]
  · unfold fetch_page
    rw [h0, h1]
    simp [fetchLoop]

/-- Claim C3, witness: `claim_C3` against the always-timing-out
endpoint: exhausted after exactly 3 attempts and three 2-unit sleeps. -/
theorem claim_C3_witness :
    fetch_page (fun _ => AttemptOutcome.exc) = (.exhausted, 3, [2, 2, 2]) :=
  (claim_C3 (fun _ => AttemptOutcome.exc)).2.1 (fun _ => rfl)

/-! ## Claim C10 -/

/-- Lowering a character never yields an ASCII uppercase letter. -/
theorem pyToLower_not_upper (c : Char) : isAsciiUpper (pyToLower c) = false := by
  unfold pyToLower isAsciiUpper
  by_cases h : (65 ≤ c.toNat && c.toNat ≤ 90) = true
  · rw [if_pos h]
    simp only [Bool.and_eq_true, decide_eq_true_eq] at h
    have hv : (c.toNat + 32).isValidChar := Or.inl (by omega)
    have he : (Char.ofNat (c.toNat + 32)).toNat = c.toNat + 32 := by
      rw [Char.ofNat, dif_pos hv]
      rfl
    rw [he]
    simp only [Bool.and_eq_false_iff, decide_eq_false_iff_not]
    omega
  · rw [if_neg h]
    simp only [Bool.and_eq_true, decide_eq_true_eq, not_and, not_le] at h
    simp only [Bool.and_eq_false_iff, decide_eq_false_iff_not, not_le]
    omega

/-- No character of a lowercased string is an ASCII uppercase letter. -/
theorem mem_pyLower_not_upper {c : Char} {s : String} (h : c ∈ (pyLower s).data) :
    isAsciiUpper c = false := by
  unfold pyLower at h
  rw [show (String.mk (s.data.map pyToLower)).data = s.data.map pyToLower from rfl,
    List.mem_map] at h
  obtain ⟨d, _, rfl⟩ := h
  exact pyToLower_not_upper d

/-- Claim C10: `is_target_file` lowercases only the URL path and
matches the target extensions verbatim: it returns true exactly when the
lowercased path ends with some extension as supplied, and a target
extension containing an ASCII uppercase letter never matches any URL. -/
theorem claim_C10 (self : WebScraper) (url : String) :
    (self.is_target_file url = true ↔
      ∃ ext ∈ self.target_extensions, pyEndsWith (pyLower (urlparse url).path) ext = true)
    ∧ ∀ ext ∈ self.target_extensions, (∃ c ∈ ext.data, isAsciiUpper c = true) →
        pyEndsWith (pyLower (urlparse url).path) ext = false := by
  constructor
  · unfold WebScraper.is_target_file
    exact List.any_eq_true
  · rintro ext - ⟨c, hc, hup⟩
    by_contra hend
    rw [Bool.not_eq_false] at hend
    unfold pyEndsWith at hend
    rw [List.isSuffixOf_iff_suffix] at hend
    obtain ⟨t, ht⟩ := hend
    have hmem : c ∈ (pyLower (urlparse url).path).data := by
      rw [← ht]
      exact List.mem_append_right t hc
    rw [mem_pyLower_not_upper hmem] at hup
    exact Bool.false_ne_true hup

/-- Claim C10, witness: the extension `".PDF"` fails to match the URL
`https://example.com/a.pdf` even though its lowercase form would. -/
theorem claim_C10_witness :
    pyEndsWith (pyLower (urlparse "https://example.com/a.pdf").path) ".PDF" = false :=
  (claim_C10 (mkScraper "https://example.com" [".PDF"]) "https://example.com/a.pdf").2
    ".PDF" (by decide) ⟨'P', by decide, by decide⟩

/-! ## Claim C5 -/

/-- Every crawl link returned by the href loop passed the internal-link
guard. -/
theorem extractHrefLoop_internal (self : WebScraper) (visited : List String)
    (current : String) (hrefs : List String) :
    ∀ u ∈ (extractHrefLoop self visited current hrefs).1, self.is_internal_link u = true := by
  induction hrefs with
  | nil =>
    intro u hu
    simp [extractHrefLoop] at hu
  | cons href rest ih =>
    intro u hu
    simp only [extractHrefLoop] at hu
    split_ifs at hu with h1 h2 h3
    · exact ih u hu
    · exact ih u hu
    · rcases List.mem_cons.mp hu with rfl | hu2
      · simp only [Bool.and_eq_true] at h3
        exact h3.1
      · exact ih u hu2
    · exact ih u hu

/-- Claim C5: every URL in the crawl-link sequence returned by
extraction has the seed domain as its host: a link whose resolved host
differs from the domain never appears among the returned crawl links. -/
theorem claim_C5 (self : WebScraper) (visited : List String)
    (hrefs imgSrcs : List String) (current : String) :
    ∀ u ∈ (extract_links_and_files self visited hrefs imgSrcs current).1,
      (urlparse u).netloc = self.domain := by
  intro u hu
  have h2 : self.is_internal_link u = true := by
    apply extractHrefLoop_internal self visited current hrefs
    simpa [extract_links_and_files] using hu
  unfold WebScraper.is_internal_link at h2
  exact of_decide_eq_true h2

/-- Claim C5, witness: the one crawl link of the claim C1 scenario has
the seed domain as its host. -/
theorem claim_C5_witness :
    (urlparse "https://example.com/a.html").netloc
      = (mkScraper "https://example.com" [".pdf"]).domain :=
  claim_C5 (mkScraper "https://example.com" [".pdf"]) []
    ["/a.html", "/doc.pdf", "https://other.com/x.pdf"] [] "https://example.com"
    "https://example.com/a.html" (by decide)

/-! ## Claim C9 -/

/-- Taking while a predicate holds stops exactly at the first failing
element after a satisfying prefix. -/
theorem takeWhile_all_append {p : Char → Bool} {l : List Char}
    (h : ∀ x ∈ l, p x = true) (c : Char) (hc : p c = false) (t : List Char) :
    List.takeWhile p (l ++ c :: t) = l := by
  induction l with
  | nil => simp [List.takeWhile_cons, hc]
  | cons x xs ih =>
    have hx : p x = true := h x (List.mem_cons_self x xs)
    simp only [List.cons_append, List.takeWhile_cons, hx, if_true]
    rw [ih (fun y hy => h y (List.mem_cons_of_mem x hy))]

/-- Taking while a predicate holds keeps a list all of whose elements
satisfy it. -/
theorem takeWhile_all {p : Char → Bool} {l : List Char}
    (h : ∀ x ∈ l, p x = true) : List.takeWhile p l = l := by
  induction l with
  | nil => rfl
  | cons x xs ih =>
    have hx : p x = true := h x (List.mem_cons_self x xs)
    simp only [List.takeWhile_cons, hx, if_true]
    rw [ih (fun y hy => h y (List.mem_cons_of_mem x hy))]

/-- The character data of `"https://" ++ rest ++ "#" ++ a` in head
normal form. -/
theorem https_frag_data (rest a : String) :
    ("https://" ++ rest ++ "#" ++ a).data
      = 'h' :: 't' :: 't' :: 'p' :: 's' :: ':' :: '/' :: '/' :: (rest.data ++ '#' :: a.data) := by
  rw [String.data_append, String.data_append, String.data_append,
    List.append_assoc, List.append_assoc]
  rfl

/-- Resolving an absolute `https` reference with a fragment strips
exactly the fragment: `urljoin` returns an absolute reference
unchanged and `split('#')[0]` cuts at the first `'#'`. -/
theorem resolveRef_https_frag (current rest a : String)
    (h : ∀ c ∈ rest.data, c ≠ '#') :
    resolveRef current ("https://" ++ rest ++ "#" ++ a) = "https://" ++ rest := by
  have hjoin : urljoin current ("https://" ++ rest ++ "#" ++ a)
      = "https://" ++ rest ++ "#" ++ a := by
    unfold urljoin
    rw [https_frag_data]
    rfl
  have ht : List.takeWhile (fun c => decide (c ≠ '#')) (rest.data ++ '#' :: a.data)
      = rest.data :=
    takeWhile_all_append (fun x hx => by simpa using h x hx) '#' (by simp) a.data
  unfold resolveRef splitHead
  rw [hjoin, https_frag_data]
  show String.mk ('h' :: 't' :: 't' :: 'p' :: 's' :: ':' :: '/' :: '/' ::
    List.takeWhile (fun c => decide (c ≠ '#')) (rest.data ++ '#' :: a.data)) = _
  rw [ht]
  show String.mk (("https://" ++ rest).data) = "https://" ++ rest
  rfl

/-- Resolving an absolute fragment-free `https` reference is the
identity. -/
theorem resolveRef_https_nofrag (current rest : String)
    (h : ∀ c ∈ rest.data, c ≠ '#') :
    resolveRef current ("https://" ++ rest) = "https://" ++ rest := by
  have hdata : ("https://" ++ rest).data
      = 'h' :: 't' :: 't' :: 'p' :: 's' :: ':' :: '/' :: '/' :: rest.data := by
    rw [String.data_append]
    rfl
  have hjoin : urljoin current ("https://" ++ rest) = "https://" ++ rest := by
    unfold urljoin
    rw [hdata]
    rfl
  have ht : List.takeWhile (fun c => decide (c ≠ '#')) rest.data = rest.data :=
    takeWhile_all (fun x hx => by simpa using h x hx)
  unfold resolveRef splitHead
  rw [hjoin, hdata]
  show String.mk ('h' :: 't' :: 't' :: 'p' :: 's' :: ':' :: '/' :: '/' ::
    List.takeWhile (fun c => decide (c ≠ '#')) rest.data) = _
  rw [ht]
  show String.mk (("https://" ++ rest).data) = "https://" ++ rest
  rfl

/-- Claim C9: URLs differing only in their fragment are the same entry
for extraction: after resolution the fragment is stripped, so
`https://x/y#a` and `https://x/y#b` drive download classification and
link collection through the identical URL `https://x/y`. -/
theorem claim_C9 (self : WebScraper) (visited : List String)
    (current rest a b : String) (h : ∀ c ∈ rest.data, c ≠ '#') :
    extract_links_and_files self visited ["https://" ++ rest ++ "#" ++ a] [] current
      = extract_links_and_files self visited ["https://" ++ rest ++ "#" ++ b] [] current
    ∧ extract_links_and_files self visited ["https://" ++ rest ++ "#" ++ a] [] current
      = extract_links_and_files self visited ["https://" ++ rest] [] current := by
  have ha := resolveRef_https_frag current rest a h
  have hb := resolveRef_https_frag current rest b h
  have hn := resolveRef_https_nofrag current rest h
  constructor
  · simp only [extract_links_and_files, extractHrefLoop, ha, hb]
  · simp only [extract_links_and_files, extractHrefLoop, ha, hn]

/-- Claim C9, witness: the fragment-equivalence of `claim_C9` at the
concrete pair `https://x/y#a`, `https://x/y#b`. -/
theorem claim_C9_witness :
    extract_links_and_files (mkScraper "https://x/" [".pdf"]) []
        ["https://" ++ "x/y" ++ "#" ++ "a"] [] "https://x/"
      = extract_links_and_files (mkScraper "https://x/" [".pdf"]) []
        ["https://" ++ "x/y" ++ "#" ++ "b"] [] "https://x/" :=
  (claim_C9 (mkScraper "https://x/" [".pdf"]) [] "https://x/" "x/y" "a" "b" (by decide)).1

/-! ## Claim C2 -/

/-- One crawl iteration preserves the dedup invariant: the processing
history has no duplicates and is contained in the visited set. -/
theorem crawlStep_inv (oracle : String → List String) (s : CrawlState)
    (h1 : s.processed.Nodup) (h2 : ∀ u ∈ s.processed, u ∈ s.visited) :
    (crawlStep oracle s).processed.Nodup
    ∧ (∀ u ∈ (crawlStep oracle s).processed, u ∈ (crawlStep oracle s).visited) := by
  cases hq : s.queue with
  | nil => simp only [crawlStep, hq]; exact ⟨h1, h2⟩
  | cons u rest =>
    simp only [crawlStep, hq]
    by_cases hv : u ∈ s.visited
    · rw [if_pos hv]
      exact ⟨h1, h2⟩
    · rw [if_neg hv]
      refine ⟨?_, ?_⟩
      · rw [List.nodup_append]
        refine ⟨h1, List.nodup_singleton u, ?_⟩
        intro x hx hu
        rw [List.mem_singleton] at hu
        subst hu
        exact hv (h2 x hx)
      · intro v hv2
        rcases List.mem_append.mp hv2 with hvp | hvs
        · exact List.mem_cons_of_mem u (h2 v hvp)
        · rw [List.mem_singleton] at hvs
          subst hvs
          exact List.mem_cons_self v s.visited

/-- The crawl loop preserves the dedup invariant for any fuel. -/
theorem crawlRun_inv (oracle : String → List String) (fuel : Nat) (s : CrawlState)
    (h1 : s.processed.Nodup) (h2 : ∀ u ∈ s.processed, u ∈ s.visited) :
    (crawlRun oracle fuel s).processed.Nodup
    ∧ (∀ u ∈ (crawlRun oracle fuel s).processed, u ∈ (crawlRun oracle fuel s).visited) := by
  induction fuel generalizing s with
  | zero => exact ⟨h1, h2⟩
  | succ n ih =>
    simp only [crawlRun]
    by_cases hq : s.queue.isEmpty
    · rw [if_pos hq]
      exact ⟨h1, h2⟩
    · rw [if_neg hq]
      obtain ⟨g1, g2⟩ := crawlStep_inv oracle s h1 h2
      exact ih (crawlStep oracle s) g1 g2

/-- Claim C2: for every page oracle, fuel and seed, no URL is processed
(fetched) more than once by the crawl loop, and every processed URL was
marked visited: the processing history is duplicate-free and contained
in the visited set. -/
theorem claim_C2 (oracle : String → List String) (fuel : Nat) (base_url : String) :
    (crawlRun oracle fuel (crawlInit base_url)).processed.Nodup
    ∧ (∀ u ∈ (crawlRun oracle fuel (crawlInit base_url)).processed,
        u ∈ (crawlRun oracle fuel (crawlInit base_url)).visited) :=
  crawlRun_inv oracle fuel (crawlInit base_url) List.nodup_nil (by simp [crawlInit])

/-- Claim C2, witness: on an oracle that rediscovers the seed on every
page, the seed still reaches the visited set exactly once in the
processing history. -/
theorem claim_C2_witness :
    "https://example.com" ∈ (crawlRun (fun u => [u]) 3
      (crawlInit "https://example.com")).visited :=
  (claim_C2 (fun u => [u]) 3 "https://example.com").2 "https://example.com" (by decide)

/-! ## Claim C7 -/

/-- An oracle that answers every streamed GET with a 200 and one
complete chunk. -/
def netOk : String → Option NetResponse :=
  fun _ => some ⟨200, [.chunk [7]]⟩

/-- Claim C7: downloading the same file URL twice writes storage
exactly once: when the first call reports a completed download, the
filesystem gained exactly one entry, and the second call reports a
duplicate skip and leaves the filesystem unchanged, never overwriting. -/
theorem claim_C7 (net : String → Option NetResponse) (fs : Fs) (url : String) (fs1 : Fs)
    (h : download_file net fs url = (.downloaded, fs1)) :
    fs1.length = fs.length + 1
    ∧ download_file net fs1 url = (.skippedDuplicate, fs1) := by
  have hshape : ∃ content, fs1 = (savePathOf url, content) :: fs := by
    unfold download_file download_file_try at h
    by_cases hdup : fs.any (fun e => e.1 = savePathOf url) = true
    · simp [hdup] at h
    · cases hnet : net url with
      | none => simp [hdup, hnet] at h
      | some r =>
        by_cases hst : 400 ≤ r.status
        · simp [hdup, hnet, hst] at h
        · by_cases hok : (streamWrite r.body).2 = true
          · simp [hdup, hnet, hst, hok] at h
            exact ⟨(streamWrite r.body).1, h.symm⟩
          · simp [hdup, hnet, hst, hok] at h
  obtain ⟨content, rfl⟩ := hshape
  refine ⟨by simp, ?_⟩
  unfold download_file download_file_try
  have hany : ((savePathOf url, content) :: fs).any (fun e => e.1 = savePathOf url) = true := by
    simp
  simp [hany]

/-- Claim C7, witness: `claim_C7` on a successful one-chunk download of
`https://example.com/a.pdf` into an empty filesystem. -/
theorem claim_C7_witness :
    ([("downloads/pdf/a.pdf", [7])] : Fs).length = ([] : Fs).length + 1
    ∧ download_file netOk [("downloads/pdf/a.pdf", [7])] "https://example.com/a.pdf"
        = (.skippedDuplicate, [("downloads/pdf/a.pdf", [7])]) :=
  claim_C7 netOk [] "https://example.com/a.pdf" [("downloads/pdf/a.pdf", [7])] (by decide)

/-! ## Claim C8 -/

/-- An oracle whose streamed GET delivers one chunk and then raises
mid-stream. -/
def netMidErr : String → Option NetResponse :=
  fun _ => some ⟨200, [.chunk [1, 2], .errItem]⟩

/-- Claim C8, counterexample: a mid-stream failure is caught, but the
aborted download leaves a partial file at the final destination path:
after streaming `[1, 2]` and then raising, `downloads/pdf/f.pdf` exists
with the partial content, so the write is not atomic with respect to
failure. -/
theorem claim_C8_counterexample :
    (download_file netMidErr [] "https://example.com/f.pdf").1 = .failed
    ∧ ("downloads/pdf/f.pdf", [1, 2])
        ∈ (download_file netMidErr [] "https://example.com/f.pdf").2 := by
  decide

/-- Claim C8, amended: every failure inside `download_file` (connection
error, HTTP error status, mid-stream error) is caught by its exception
handler and reported as a failed outcome, never propagating to the
caller; but the write is NOT atomic: an aborted download can leave the
partially written prefix at the final destination path, as the
mid-stream failure on `https://example.com/f.pdf` shows. -/
theorem claim_C8 (net : String → Option NetResponse) (fs : Fs) (url : String) :
    (∀ r, download_file_try net fs url = .ok r → download_file net fs url = r)
    ∧ (∀ fs2, download_file_try net fs url = .error fs2 →
        download_file net fs url = (.failed, fs2))
    ∧ download_file netMidErr [] "https://example.com/f.pdf"
        = (.failed, [("downloads/pdf/f.pdf", [1, 2])]) := by
  refine ⟨fun r hr => ?_, fun fs2 he => ?_, by decide⟩
  · unfold download_file
    rw [hr]
  · unfold download_file
    rw [he]

/-- Claim C8, witness: `claim_C8` applied to the mid-stream failure:
the raised exception is caught and surfaced as a failed outcome, with
the partial file in the returned filesystem. -/
theorem claim_C8_witness :
    download_file netMidErr [] "https://example.com/f.pdf"
      = (.failed, [("downloads/pdf/f.pdf", [1, 2])]) :=
  (claim_C8 netMidErr [] "https://example.com/f.pdf").2.1
    [("downloads/pdf/f.pdf", [1, 2])] rfl
